import Mathlib

/-!
Shallow embedding of the Boogie code-generation backend of this repository
(`kani-compiler/src/codegen_boogie/context/boogie_ctx.rs` together with the
destination AST of `boogie_ast/src/boogie_program/mod.rs`), and theorems about
the translation.

Conventions:
* Rust machine integers become `Nat`/`Int`; arbitrary-precision literal values
  become `Int`.
* Fallible code (`todo!()`, `unreachable!()`, `panic!`, `.unwrap()`) becomes
  `Except String`, with the error string naming the panic site.
* The per-function mutable alias table `ref_to_expr : FxHashMap<Place, Expr>`
  becomes an association list threaded in state-passing style; insertion conses
  in front and lookup takes the first hit, which is observationally the
  hash-map overwrite semantics.
* External oracles (type layout / zero-size determination, the Kani intrinsic
  name→handler table) are fields of the translation context, exactly as the
  source consumes them from collaborators.
-/

namespace KaniBoogie

/-- Boogie types (`Type` in `boogie_ast`; renamed because `Type` is a Lean
keyword).  The `Param` and `DataType` variants are modelled from the spec
(§3 `Type`: `TypeParameter(name)`, `DataType(name, type-arguments)`): they are
constructed by `boogie_ctx.rs` via `Type::parameter` / `Type::datatype` but the
`boogie_ast` snapshot under `src/` predates them. -/
inductive BType where
  | Bool
  | Bv (width : Nat)
  | Int
  | Map (key : BType) (value : BType)
  | Array (element_type : BType) (len : Nat)
  | Param (name : String)
  | DataType (name : String) (args : List BType)

/-- Function and procedure parameters (`Parameter` in `boogie_ast`). -/
structure Parameter where
  name : String
  typ : BType

/-- Boogie literals (`Literal` in `boogie_ast`).  The bit-vector payload is an
arbitrary-precision integer, never machine-width-truncated at the literal
level. -/
inductive Literal where
  | Bool (b : Bool)
  | bv (width : Nat) (value : Int)
  | int (value : Int)
deriving DecidableEq

/-- Boogie unary operators (`UnaryOp` in `boogie_ast`). -/
inductive UnaryOp where
  | Not
  | Neg
deriving DecidableEq

/-- Boogie binary operators (`BinaryOp` in `boogie_ast`). -/
inductive BinaryOp where
  | And | Or | Eq | Neq | Lt | Lte | Gt | Gte
  | Add | Sub | Mul | Div | Mod
deriving DecidableEq

/-- Boogie expressions (`Expr` in `boogie_ast`).  `Field` is modelled from the
spec (§3 `Expr`: `Field(base,name)`); `Extract`, `SignExtend` and `ZeroExtend`
are modelled from the spec (§4.4: narrowing "extracts the low `to_width`
bits", widening "sign-extends ... zero-extends ... by `to_width - from_width`
bits") — they are built by `boogie_ctx.rs` through `Expr::extract`,
`Expr::sign_extend`, `Expr::zero_extend`, which postdate the `boogie_ast`
snapshot under `src/`. -/
inductive Expr where
  | Literal (l : Literal)
  | Symbol (name : String)
  | UnaryOp (op : UnaryOp) (operand : Expr)
  | BinaryOp (op : BinaryOp) (left : Expr) (right : Expr)
  | FunctionCall (symbol : String) (arguments : List Expr)
  | Index (base : Expr) (index : Expr)
  | Field (base : Expr) (field : String)
  | Extract (base : Expr) (width : Nat) (low : Nat)
  | SignExtend (base : Expr) (width : Nat)
  | ZeroExtend (base : Expr) (width : Nat)

/-- Mirror of `Expr::function_call`. -/
def Expr.function_call (symbol : String) (arguments : List Expr) : Expr :=
  Expr.FunctionCall symbol arguments

/-- Mirror of `Expr::not` (modelled from the spec, §4.4: "greater-or-equal is
logical negation of the less-than call" — the destination's native unary
`Not`). -/
def Expr.not (e : Expr) : Expr :=
  Expr.UnaryOp UnaryOp.Not e

/-- Boogie statements (`Stmt` in `boogie_ast`).  The `Null` no-op variant is
modelled from the spec (§3 `Stmt`: "Null (no-op)"); it is returned by
`codegen_statement` for reference-taking assignments but postdates the
`boogie_ast` snapshot under `src/`. -/
inductive Stmt where
  | Assignment (target : String) (value : Expr)
  | Assert (condition : Expr)
  | Assume (condition : Expr)
  | Block (statements : List Stmt)
  | Break
  | Call (symbol : String) (arguments : List Expr)
  | Decl (name : String) (typ : BType)
  | Havoc (name : String)
  | If (condition : Expr) (body : Stmt) (else_body : Option Stmt)
  | Goto (label : String)
  | Label (label : String) (statement : Stmt)
  | Return
  | While (condition : Expr) (body : Stmt)
  | Null

/-- Mirror of `Stmt::block`: "avoid creating a block if there is a single
statement". -/
def Stmt.block : List Stmt → Stmt
  | [s] => s
  | statements => Stmt.Block statements

/-- Contract specification (`Contract` in `boogie_ast`). -/
structure Contract where
  requires : List Expr
  ensures : List Expr
  modifies : List Expr

/-- Procedure definition (`Procedure` in `boogie_ast`). -/
structure Procedure where
  name : String
  parameters : List Parameter
  return_parameters : List (String × BType)
  contract : Option Contract
  body : Stmt

/-- Mirror of `Procedure::new`. -/
def Procedure.new (name : String) (parameters : List Parameter)
    (return_parameters : List (String × BType)) (contract : Option Contract)
    (body : Stmt) : Procedure :=
  { name, parameters, return_parameters, contract, body }

/-- Boogie function definition (`Function` in `boogie_ast`): a mathematical
function; `attributes` carries e.g. the `:bvbuiltin` solver tag. -/
structure BFunction where
  name : String
  parameters : List Parameter
  return_type : BType
  body : Option Expr
  attributes : List String

/-- Mirror of `Function::new`. -/
def BFunction.new (name : String) (parameters : List Parameter)
    (return_type : BType) (body : Option Expr) (attributes : List String) :
    BFunction :=
  { name, parameters, return_type, body, attributes }

/-- Datatype constructor (modelled from the spec, §3 "DataType declaration":
each constructor is an ordered list of named fields; `DataTypeConstructor` is
used by `boogie_ctx.rs` but postdates the `boogie_ast` snapshot under
`src/`). -/
structure DataTypeConstructor where
  name : String
  fields : List Parameter

/-- Mirror of `DataTypeConstructor::new`. -/
def DataTypeConstructor.new (name : String) (fields : List Parameter) :
    DataTypeConstructor :=
  { name, fields }

/-- Datatype declaration (modelled from the spec, §3 "DataType declaration":
name, ordered generic type-parameter names, ordered list of named
constructors). -/
structure DataTypeDeclaration where
  name : String
  type_parameters : List String
  constructors : List DataTypeConstructor

/-- Mirror of `DataTypeDeclaration::new`. -/
def DataTypeDeclaration.new (name : String) (type_parameters : List String)
    (constructors : List DataTypeConstructor) : DataTypeDeclaration :=
  { name, type_parameters, constructors }

/-- A Boogie program (`BoogieProgram` in `boogie_ast`).  The type/const/var
declaration and axiom lists of the source are empty placeholder structs and
are never populated by the translator, so they are omitted here; `datatypes`
is modelled from the spec (§3 Program / §4.1 preamble datatype). -/
structure BoogieProgram where
  functions : List BFunction
  procedures : List Procedure
  datatypes : List DataTypeDeclaration

/-- Mirror of `BoogieProgram::new`. -/
def BoogieProgram.new : BoogieProgram :=
  { functions := [], procedures := [], datatypes := [] }

/-- Mirror of `BoogieProgram::add_function`. -/
def BoogieProgram.add_function (p : BoogieProgram) (f : BFunction) :
    BoogieProgram :=
  { p with functions := p.functions ++ [f] }

/-- Mirror of `BoogieProgram::add_procedure`. -/
def BoogieProgram.add_procedure (p : BoogieProgram) (proc : Procedure) :
    BoogieProgram :=
  { p with procedures := p.procedures ++ [proc] }

/-- Mirror of `BoogieProgram::add_datatype` (modelled from the spec: preamble
datatypes are appended to the program). -/
def BoogieProgram.add_datatype (p : BoogieProgram) (d : DataTypeDeclaration) :
    BoogieProgram :=
  { p with datatypes := p.datatypes ++ [d] }

/-! Builtin registry (`SmtBvBuiltin` in `boogie_ctx.rs`). -/

/-- The fixed catalog of bit-vector builtins (`enum SmtBvBuiltin`). -/
inductive SmtBvBuiltin where
  | UnsignedLessThan
  | SignedLessThan
  | Add
  | Or
  | And
  | Shl
  | Shr
  | Not
deriving DecidableEq

/-- The strum `serialize` string of each entry (what `as_ref()` returns).
Note the source serializes `Not` as `"BvNot"`, without the `$` prefix the
other entries carry. -/
def SmtBvBuiltin.as_ref : SmtBvBuiltin → String
  | .UnsignedLessThan => "$BvUnsignedLessThan"
  | .SignedLessThan => "$BvSignedLessThan"
  | .Add => "$BvAdd"
  | .Or => "$BvOr"
  | .And => "$BvAnd"
  | .Shl => "$BvShl"
  | .Shr => "$BvShr"
  | .Not => "BvNot"

/-- Mirror of `SmtBvBuiltin::smt_op_name`. -/
def SmtBvBuiltin.smt_op_name : SmtBvBuiltin → String
  | .UnsignedLessThan => "bvult"
  | .SignedLessThan => "bvslt"
  | .Add => "bvadd"
  | .Or => "bvor"
  | .And => "bvand"
  | .Shl => "bvshl"
  | .Shr => "bvlshr"
  | .Not => "bvnot"

/-- Mirror of `SmtBvBuiltin::is_predicate`. -/
def SmtBvBuiltin.is_predicate : SmtBvBuiltin → Bool
  | .UnsignedLessThan | .SignedLessThan => true
  | .Or | .And | .Add | .Shl | .Shr | .Not => false

/-- The order `SmtBvBuiltin::iter()` yields variants (strum `EnumIter`:
declaration order). -/
def SmtBvBuiltin.iterList : List SmtBvBuiltin :=
  [.UnsignedLessThan, .SignedLessThan, .Add, .Or, .And, .Shl, .Shr, .Not]

/-- Mirror of `smt_builtin_binop`: declare one builtin as a generic Boogie
function over the single type parameter `T`, with parameters `lhs`/`rhs`,
returning `Bool` for predicates and `T` otherwise, tagged with the
`:bvbuiltin` solver primitive attribute. -/
def smt_builtin_binop (bv_builtin : String) (smt_name : String)
    (is_predicate : Bool) : BFunction :=
  let tp_name := "T"
  let tp := BType.Param tp_name
  BFunction.new
    (bv_builtin ++ "<" ++ tp_name ++ ">")
    [Parameter.mk "lhs" tp, Parameter.mk "rhs" tp]
    (if is_predicate then BType.Bool else tp)
    none
    [":bvbuiltin \"" ++ smt_name ++ "\""]

/-- Mirror of `BoogieCtx::add_preamble`: declare every builtin-registry entry,
then the `$UnboundedArray` datatype. -/
def add_preamble (program : BoogieProgram) : BoogieProgram :=
  let program := SmtBvBuiltin.iterList.foldl
    (fun p b => p.add_function
      (smt_builtin_binop b.as_ref b.smt_op_name b.is_predicate))
    program
  let name := "$UnboundedArray"
  let constructor := DataTypeConstructor.new name
    [Parameter.mk "data" (BType.Map (BType.Bv 64) (BType.Param "T")),
     Parameter.mk "len" (BType.Bv 64)]
  let unbounded_array_data_type :=
    DataTypeDeclaration.new name ["T"] [constructor]
  program.add_datatype unbounded_array_data_type

/-! Source (MIR) model: just the shapes `boogie_ctx.rs` inspects. -/

/-- MIR signed integer types (`rustc_middle::ty::IntTy`). -/
inductive IntTy where
  | I8 | I16 | I32 | I64 | I128 | Isize
deriving DecidableEq

/-- MIR unsigned integer types (`rustc_middle::ty::UintTy`). -/
inductive UintTy where
  | U8 | U16 | U32 | U64 | U128 | Usize
deriving DecidableEq

/-- The width the translator uses for a signed integer type:
`ity.bit_width().unwrap_or(64)` — pointer-sized integers default to 64.  The
same values appear literally in `codegen_scalar`. -/
def IntTy.width : IntTy → Nat
  | .I8 => 8
  | .I16 => 16
  | .I32 => 32
  | .I64 => 64
  | .I128 => 128
  | .Isize => 64

/-- The width the translator uses for an unsigned integer type
(`uty.bit_width().unwrap_or(64)`). -/
def UintTy.width : UintTy → Nat
  | .U8 => 8
  | .U16 => 16
  | .U32 => 32
  | .U64 => 64
  | .U128 => 128
  | .Usize => 64

/-- MIR types, restricted to the shapes the translator inspects
(`rustc_middle::ty::Ty`).  `ref` carries the mutability flag; `adt` carries
the ADT path name and its field names (used by field projections); `fnDef`
carries the resolved callee's name (standing for the `DefId`); `unsupported`
stands for every other `TyKind`, all of which reach a `todo!()`. -/
inductive MirTy where
  | bool
  | int (ity : IntTy)
  | uint (uty : UintTy)
  | ref (mutbl : Bool) (ty : MirTy)
  | array (elem : MirTy) (len : Nat)
  | tuple (types : List MirTy)
  | adt (name : String) (field_names : List String)
  | fnDef (name : String)
  | unsupported

mutual

/-- Structural equality on MIR types (Rust's derived `PartialEq`, used by the
translator's `!=` check in addition and `assert_eq!` in comparisons). -/
def MirTy.beq : MirTy → MirTy → Bool
  | .bool, .bool => true
  | .int a, .int b => a = b
  | .uint a, .uint b => a = b
  | .ref m t, .ref m' t' => m = m' && MirTy.beq t t'
  | .array e l, .array e' l' => MirTy.beq e e' && l = l'
  | .tuple ts, .tuple ts' => MirTy.beqList ts ts'
  | .adt n f, .adt n' f' => n = n' && f = f'
  | .fnDef n, .fnDef n' => n = n'
  | .unsupported, .unsupported => true
  | _, _ => false

/-- Structural equality on lists of MIR types. -/
def MirTy.beqList : List MirTy → List MirTy → Bool
  | [], [] => true
  | t :: ts, t' :: ts' => MirTy.beq t t' && MirTy.beqList ts ts'
  | _, _ => false

end

/-- MIR place projections (`ProjectionElem`), restricted to what the
translator distinguishes: `Deref`, `Index(local)`, `Field(index)`; `other`
stands for the remaining projection kinds, which `codegen_place` passes
through unchanged. -/
inductive ProjectionElem where
  | deref
  | index (l : Nat)
  | field (idx : Nat)
  | other
deriving DecidableEq

/-- A MIR place: base local plus projections. -/
structure Place where
  base : Nat
  projection : List ProjectionElem
deriving DecidableEq

/-- Mirror of `is_deref`: the projection is exactly one `Deref`. -/
def is_deref (p : Place) : Bool :=
  p.projection = [ProjectionElem.deref]

/-- MIR constant values (`ConstValue`), restricted to the handled shapes: a
scalar (its mathematical value; the source converts the raw scalar through
`to_i8`/`to_u8`/... which simply reads the typed value for well-typed MIR),
or any other shape, which reaches a `todo!()`. -/
inductive ConstValue where
  | scalar (value : Int)
  | otherValue
deriving DecidableEq

/-- MIR constants (`rustc_middle::mir::Const`): an evaluated value with its
type, or the unevaluated/type-level forms the translator sends to
`todo!()`. -/
inductive MirConst where
  | val (value : ConstValue) (ty : MirTy)
  | otherConst

/-- MIR operands. -/
inductive Operand where
  | copy (place : Place)
  | move (place : Place)
  | constant (c : MirConst)

/-- MIR cast kinds, restricted to what the translator distinguishes:
`IntToInt` is handled, everything else reaches a `todo!()`. -/
inductive CastKind where
  | intToInt
  | floatToInt
  | intToFloat
  | ptrToPtr
  | transmute
deriving DecidableEq

/-- MIR binary operators (`rustc_middle::mir::BinOp`). -/
inductive BinOp where
  | add | addUnchecked | sub | mul | div | rem
  | bitXor | bitAnd | bitOr | shl | shr
  | eq | lt | le | ne | ge | gt | offset
deriving DecidableEq

/-- MIR unary operators (`rustc_middle::mir::UnOp`). -/
inductive UnOp where
  | not
  | neg
deriving DecidableEq

/-- MIR r-values, restricted to the shapes the translator matches;
`otherRvalue` stands for the remaining variants, which reach a `todo!()`. -/
inductive Rvalue where
  | use (operand : Operand)
  | unaryOp (op : UnOp) (operand : Operand)
  | binaryOp (op : BinOp) (lhs : Operand) (rhs : Operand)
  | checkedBinaryOp (op : BinOp) (lhs : Operand) (rhs : Operand)
  | ref (place : Place)
  | cast (kind : CastKind) (operand : Operand) (ty : MirTy)
  | otherRvalue

/-- MIR statements, flattened to their kind: an assignment, or any of the
other `StatementKind`s, all of which reach a `todo!()`. -/
inductive Statement where
  | assign (place : Place) (rvalue : Rvalue)
  | otherStatement

/-- Switch targets: the list of `(value, target block)` arms plus the
`otherwise` block.  `all_targets()` is the arm blocks followed by
`otherwise`, so its length is `branches.length + 1`. -/
structure SwitchTargets where
  branches : List (Nat × Nat)
  otherwise : Nat
deriving DecidableEq

/-- MIR terminators, flattened to their kind and restricted to the handled
shapes; `otherTerminator` stands for the rest, which reach a `todo!()`.
`assert` keeps only its target (the translator ignores everything else and
the successor matters for the traversal). -/
inductive Terminator where
  | call (func : Operand) (args : List Operand) (destination : Place)
      (target : Option Nat)
  | ret
  | goto (target : Nat)
  | switchInt (discr : Operand) (targets : SwitchTargets)
  | assert (target : Nat)
  | otherTerminator

/-- A MIR basic block: statements plus exactly one terminator. -/
structure BasicBlockData where
  statements : List Statement
  terminator : Terminator

/-- A MIR body: the locals' types (index = local number) and the basic
blocks (index = block number; block 0 is the entry `START_BLOCK`). -/
structure Body where
  local_decls : List MirTy
  blocks : List BasicBlockData

/-- A resolved function instance: its definition path (used for the intrinsic
lookup) and its mangled symbol name (used as the procedure name). -/
structure FnInstance where
  defName : String
  symbolName : String
deriving DecidableEq

/-- The debug rendering of a MIR local, `format!("{lc:?}")`: `_0`, `_1`, ... -/
def localName (l : Nat) : String :=
  "_" ++ toString l

/-- The debug rendering of a MIR basic block, `format!("{bb:?}")`:
`bb0`, `bb1`, ... -/
def blockLabel (bb : Nat) : String :=
  "bb" ++ toString bb

/-! Textual rendering of an expression (the source calls `expr.to_string()`;
the writer is out of scope per the spec, which only requires the alias target
to be "rendered as a name").  Only the `Symbol` case is relied on by the
translator: an alias target is always rendered through it. -/

mutual

/-- Modelled from the spec: the writer's textual rendering of an expression
(`Expr::to_string`, spec §6: exact grammar is the writer's responsibility;
used by `codegen_statement`, where the alias-resolved left-hand side is
"rendered as a name"). -/
def Expr.render : Expr → String
  | .Literal (.Bool b) => if b then "true" else "false"
  | .Literal (.bv w v) => toString v ++ "bv" ++ toString w
  | .Literal (.int v) => toString v
  | .Symbol n => n
  | .UnaryOp .Not e => "!" ++ Expr.render e
  | .UnaryOp .Neg e => "-" ++ Expr.render e
  | .BinaryOp _ l r => Expr.render l ++ " op " ++ Expr.render r
  | .FunctionCall s args => s ++ "(" ++ Expr.renderList args ++ ")"
  | .Index b i => Expr.render b ++ "[" ++ Expr.render i ++ "]"
  | .Field b f => Expr.render b ++ "->" ++ f
  | .Extract b w l => Expr.render b ++ "[" ++ toString w ++ ":" ++ toString l ++ "]"
  | .SignExtend b w => "sext(" ++ Expr.render b ++ ", " ++ toString w ++ ")"
  | .ZeroExtend b w => "zext(" ++ Expr.render b ++ ", " ++ toString w ++ ")"

/-- Comma-separated rendering of argument lists. -/
def Expr.renderList : List Expr → String
  | [] => ""
  | [e] => Expr.render e
  | e :: es => Expr.render e ++ ", " ++ Expr.renderList es

end

/-! The per-function translation context (`FunctionCtx` in `boogie_ctx.rs`)
and the alias table. -/

/-- The alias table `ref_to_expr : FxHashMap<Place, Expr>`, as an association
list: insertion conses in front, lookup takes the first hit (hash-map
overwrite semantics). -/
def RefMap : Type := List (Place × Expr)

/-- Hash-map lookup: first binding for the exact place. -/
def RefMap.get (st : RefMap) (p : Place) : Option Expr :=
  match (List.find? (fun q => decide (q.1 = p)) st) with
  | some q => some q.2
  | none => none

/-- Hash-map insert (overwrites any previous binding for the place, since
lookup takes the first hit). -/
def RefMap.insert (st : RefMap) (p : Place) (e : Expr) : RefMap :=
  (p, e) :: st

/-- The handler of one Kani intrinsic (`codegen_kani_intrinsic`): given the
call's arguments, destination and target it produces the lowered statement.
Modelled from the spec — the `kani_intrinsic` module is not under `src/`;
spec §4.3: "only calls recognized by an external name-based intrinsic table
are lowered (each intrinsic owns its own lowering rule, consumed as a
name→handler lookup)". -/
def KaniHandler : Type := List Operand → Place → Option Nat → Stmt

/-- The per-function translation context: the layout oracle (zero-size
determination, spec §1/§6: consumed as an oracle), the intrinsic
name→handler table (`get_kani_intrinsic` composed with
`codegen_kani_intrinsic`, modelled from the spec), and the function's MIR
body.  The mutable alias table `ref_to_expr` is threaded separately. -/
structure FunctionCtx where
  is_zst : MirTy → Bool
  kani_intrinsic : String → Option KaniHandler
  mir : Body

/-- The mutable-reference test of `codegen_declare_variables`:
`if let ty::Ref(_, _, m) = typ.kind() { m.is_mut() }`. -/
def isMutRef : MirTy → Bool
  | .ref mutbl _ => mutbl
  | _ => false

/-- Mirror of `FunctionCtx::codegen_type`.  Monomorphization
(`instantiate_mir_and_normalize_erasing_regions`) is the identity in this
model: bodies are taken as already monomorphic.  The recognized
dynamic-array ADT branch needs generic-argument and field-layout queries
that live outside the translated function, so ADTs fail here like every
other unsupported shape; no claim depends on that branch. -/
def codegen_type : MirTy → Except String BType
  | .bool => .ok .Bool
  | .int ity => .ok (.Bv ity.width)
  | .uint uty => .ok (.Bv uty.width)
  | .array elem _len => do
      let e ← codegen_type elem
      .ok (.Array e 0)
  | .tuple types =>
      match types with
      | [] => .error "unwrap: tuple without elements"
      | t :: _ => codegen_type t
  | .adt _ _ => .error "todo: unsupported ADT type"
  | .ref mutbl ty =>
      if mutbl = false then codegen_type ty
      else .error "todo: mutable reference type"
  | .fnDef _ => .error "todo: unsupported type"
  | .unsupported => .error "todo: unsupported type"

/-- Mirror of `Place::ty` (`operand_ty` on a place): the local's declared
type folded through the projection chain.  Total on well-typed MIR; ill-typed
projections fail. -/
def place_ty (mir : Body) (p : Place) : Except String MirTy :=
  match mir.local_decls[p.base]? with
  | none => .error "place_ty: no such local"
  | some t =>
      p.projection.foldlM
        (fun ty proj =>
          match proj, ty with
          | .deref, MirTy.ref _ t => .ok t
          | .index _, MirTy.array t _ => .ok t
          | .field f, MirTy.tuple ts =>
              match ts[f]? with
              | some t => .ok t
              | none => .error "place_ty: no such tuple field"
          | _, _ => .error "place_ty: ill-typed projection")
        t

/-- Mirror of `FunctionCtx::operand_ty`: `o.ty(self.mir.local_decls(), tcx)`. -/
def operand_ty (fcx : FunctionCtx) : Operand → Except String MirTy
  | .copy place | .move place => place_ty fcx.mir place
  | .constant (.val _ ty) => .ok ty
  | .constant .otherConst => .error "operand_ty: unevaluated constant"

/-- Mirror of `FunctionCtx::codegen_local`. -/
def codegen_local (l : Nat) : Expr :=
  Expr.Symbol (localName l)

/-- Mirror of `FunctionCtx::codegen_place`: an exact alias recorded for the
exact place wins; otherwise fold the base local's expression through the
projection chain (index → `Index`, field on an ADT-typed base local →
`Field` with the source field name, field on a tuple and every other
projection kind → passed through unchanged; a field projection on any other
base type is `todo!()`). -/
def codegen_place (fcx : FunctionCtx) (st : RefMap) (place : Place) :
    Except String Expr :=
  match st.get place with
  | some expr => .ok expr
  | none =>
      match fcx.mir.local_decls[place.base]? with
      | none => .error "codegen_place: no such local"
      | some local_ty =>
          place.projection.foldlM
            (fun acc proj =>
              match proj with
              | .index i => .ok (Expr.Index acc (codegen_local i))
              | .field f =>
                  match local_ty with
                  | .adt _ field_names =>
                      match field_names[f]? with
                      | some field_name => .ok (Expr.Field acc field_name)
                      | none => .error "codegen_place: no such field"
                  | .tuple _ => .ok acc
                  | _ => .error "todo: field projection on this type"
              | _ => .ok acc)
            (codegen_local place.base)

/-- Mirror of `FunctionCtx::codegen_scalar`: booleans to `Bool` literals,
integers to bit-vector literals at the source type's exact width (64 for
pointer-sized). -/
def codegen_scalar (s : Int) (ty : MirTy) : Except String Expr :=
  match ty with
  | .bool =>
      if s = 0 then .ok (.Literal (.Bool false))
      else if s = 1 then .ok (.Literal (.Bool true))
      else .error "unwrap: scalar is not a bool"
  | .int ity => .ok (.Literal (.bv ity.width s))
  | .uint uty => .ok (.Literal (.bv uty.width s))
  | _ => .error "todo: unsupported scalar type"

/-- Mirror of `FunctionCtx::codegen_constant_value`. -/
def codegen_constant_value (val : ConstValue) (ty : MirTy) :
    Except String Expr :=
  match val with
  | .scalar s => codegen_scalar s ty
  | .otherValue => .error "todo: unsupported constant value"

/-- Mirror of `FunctionCtx::codegen_constant`. -/
def codegen_constant (c : MirConst) : Except String Expr :=
  match c with
  | .val val ty => codegen_constant_value val ty
  | .otherConst => .error "todo: unsupported constant"

/-- Mirror of `FunctionCtx::codegen_operand`. -/
def codegen_operand (fcx : FunctionCtx) (st : RefMap) :
    Operand → Except String Expr
  | .copy place | .move place => codegen_place fcx st place
  | .constant c => codegen_constant c

/-- Mirror of `FunctionCtx::codegen_unary_op`: logical not is the native
unary `Not`; numeric negation routes through the registry's unary builtin. -/
def codegen_unary_op (fcx : FunctionCtx) (st : RefMap) (op : UnOp)
    (operand : Operand) : Except String (Option Stmt × Expr) := do
  let o ← codegen_operand fcx st operand
  match op with
  | .not => .ok (none, Expr.UnaryOp UnaryOp.Not o)
  | .neg => .ok (none, Expr.function_call SmtBvBuiltin.Not.as_ref [o])

/-- Mirror of `FunctionCtx::codegen_binary_op`. -/
def codegen_binary_op (fcx : FunctionCtx) (st : RefMap) (binop : BinOp)
    (lhs : Operand) (rhs : Operand) : Except String (Option Stmt × Expr) := do
  let left ← codegen_operand fcx st lhs
  let right ← codegen_operand fcx st rhs
  match binop with
  | .eq => .ok (none, Expr.BinaryOp BinaryOp.Eq left right)
  | .addUnchecked | .add => do
      let left_type ← operand_ty fcx lhs
      let right_type ← operand_ty fcx rhs
      if (right_type.beq left_type) = false then
        .error "todo: addition of different types is not yet supported"
      else
        match left_type with
        | .int _ | .uint _ =>
            .ok (none, Expr.function_call SmtBvBuiltin.Add.as_ref [left, right])
        | _ => .error "todo: unsupported addition type"
  | .lt | .ge => do
      let left_type ← operand_ty fcx lhs
      let right_type ← operand_ty fcx rhs
      if (left_type.beq right_type) = false then
        .error "assert_eq: comparison operands of different types"
      else do
        let bv_func ← match left_type with
          | .int _ => .ok SmtBvBuiltin.SignedLessThan
          | .uint _ => .ok SmtBvBuiltin.UnsignedLessThan
          | _ => .error "todo: unsupported comparison type"
        let call := Expr.function_call bv_func.as_ref [left, right]
        if binop = .lt then .ok (none, call) else .ok (none, Expr.not call)
  | .bitAnd => .ok (none, Expr.function_call SmtBvBuiltin.And.as_ref [left, right])
  | .bitOr => .ok (none, Expr.function_call SmtBvBuiltin.Or.as_ref [left, right])
  | .shr => .ok (none, Expr.function_call SmtBvBuiltin.Shr.as_ref [left, right])
  | .shl => .ok (none, Expr.function_call SmtBvBuiltin.Shl.as_ref [left, right])
  | _ => .error "todo: unsupported binary operation"

/-- Mirror of `FunctionCtx::codegen_rvalue`: the expression plus an optional
side statement (reserved for future checks; every current branch returns
`none`). -/
def codegen_rvalue (fcx : FunctionCtx) (st : RefMap) (rvalue : Rvalue) :
    Except String (Option Stmt × Expr) :=
  match rvalue with
  | .use operand => do
      let o ← codegen_operand fcx st operand
      .ok (none, o)
  | .unaryOp op operand => codegen_unary_op fcx st op operand
  | .binaryOp binop lhs rhs => codegen_binary_op fcx st binop lhs rhs
  | .checkedBinaryOp binop e1 e2 => codegen_binary_op fcx st binop e1 e2
  | .ref p => do
      let e ← codegen_place fcx st p
      .ok (none, e)
  | .cast kind operand ty =>
      if kind = .intToInt then do
        let from_type ← operand_ty fcx operand
        let o ← codegen_operand fcx st operand
        let fromT ← codegen_type from_type
        let toT ← codegen_type ty
        match fromT, toT with
        | .Bv from_width, .Bv to_width =>
            if from_width > to_width then
              .ok (none, Expr.Extract o to_width 0)
            else if from_width < to_width then
              match from_type with
              | .int _ => .ok (none, Expr.SignExtend o (to_width - from_width))
              | .uint _ => .ok (none, Expr.ZeroExtend o (to_width - from_width))
              | _ => .error "todo: unsupported widening cast source"
            else .ok (none, o)
        | _, _ => .error "panic: Expecting bv type in cast"
      else .error "todo: unsupported cast kind"
  | .otherRvalue => .error "todo: unsupported rvalue"

/-- Mirror of `add_statement`: prepend the optional side statement via
block-concatenation. -/
def add_statement (s1 : Option Stmt) (s2 : Stmt) : Stmt :=
  match s1 with
  | some s1 =>
      match s1 with
      | .Block statements => .Block (statements ++ [s2])
      | _ => .Block [s1, s2]
  | none => s2

/-- Mirror of `FunctionCtx::codegen_statement`.  Returns the updated alias
table together with the lowered statement. -/
def codegen_statement (fcx : FunctionCtx) (st : RefMap) (stmt : Statement) :
    Except String (RefMap × Stmt) :=
  match stmt with
  | .assign place rvalue =>
      let place_name := localName place.base
      match rvalue with
      | .ref rhs => do
          let expr ← codegen_place fcx st rhs
          .ok (st.insert place expr, Stmt.Null)
      | _ =>
          if is_deref place then
            let emptyPlace : Place := { base := place.base, projection := [] }
            match st.get emptyPlace with
            | none => .error "unwrap: dereferenced place has no recorded alias"
            | some expr => do
                let rv ← codegen_rvalue fcx st rvalue
                .ok (st, add_statement rv.1 (Stmt.Assignment expr.render rv.2))
          else do
            let rv ← codegen_rvalue fcx st rvalue
            .ok (st, add_statement rv.1 (Stmt.Assignment place_name rv.2))
  | .otherStatement => .error "todo: unsupported statement kind"

/-- Mirror of `FunctionCtx::codegen_switch_int`. -/
def codegen_switch_int (fcx : FunctionCtx) (st : RefMap) (discr : Operand)
    (targets : SwitchTargets) : Except String Stmt := do
  let op ← codegen_operand fcx st discr
  if targets.branches.length + 1 = 2 then do
    let thenBr ← match targets.branches with
      | b :: _ => Except.ok b
      | [] => Except.error "unwrap: switch without value arms"
    let ty ← operand_ty fcx discr
    let right ← match ty with
      | .bool => Except.ok (Literal.Bool (thenBr.1 != 0))
      | .uint _ => Except.ok (Literal.bv 128 thenBr.1)
      | _ => Except.error "unreachable: switch on this discriminant type"
    .ok (Stmt.If
      (Expr.BinaryOp BinaryOp.Eq op (Expr.Literal right))
      (Stmt.Goto (blockLabel thenBr.2))
      (some (Stmt.Goto (blockLabel targets.otherwise))))
  else .error "todo: switch with more than two targets"

/-- Mirror of `FunctionCtx::codegen_funcall`: resolve the callee, dispatch
recognized Kani intrinsics to their handler, fail on anything else. -/
def codegen_funcall (fcx : FunctionCtx) (st : RefMap) (func : Operand)
    (args : List Operand) (destination : Place) (target : Option Nat) :
    Except String (RefMap × Stmt) := do
  let funct ← operand_ty fcx func
  match funct with
  | .fnDef name =>
      match fcx.kani_intrinsic name with
      | some handler => .ok (st, handler args destination target)
      | none => .error "todo: only Kani intrinsic calls are handled"
  | _ => .error "todo: unsupported callee operand"

/-- Mirror of `FunctionCtx::codegen_terminator`. -/
def codegen_terminator (fcx : FunctionCtx) (st : RefMap) :
    Terminator → Except String (RefMap × Stmt)
  | .call func args destination target =>
      codegen_funcall fcx st func args destination target
  | .ret => .ok (st, Stmt.Return)
  | .goto target => .ok (st, Stmt.Goto (blockLabel target))
  | .switchInt discr targets => do
      let s ← codegen_switch_int fcx st discr targets
      .ok (st, s)
  | .assert _ => .ok (st, Stmt.Block [])
  | .otherTerminator => .error "todo: unsupported terminator kind"

/-- Lowering of a block's statement list (the `map` inside `codegen_block`):
each statement is lowered in order, and the statement at index 0 is wrapped
in a `Label` carrying the block's identifier. -/
def codegen_block_stmts (fcx : FunctionCtx) (st : RefMap) (label : String)
    (idx : Nat) : List Statement → Except String (RefMap × List Stmt)
  | [] => .ok (st, [])
  | s :: rest => do
      let (st1, lowered) ← codegen_statement fcx st s
      let lowered := if idx = 0 then Stmt.Label label lowered else lowered
      let (st2, restLowered) ← codegen_block_stmts fcx st1 label (idx + 1) rest
      .ok (st2, lowered :: restLowered)

/-- Mirror of `FunctionCtx::codegen_block`: zero statements → the labelled
terminator alone; otherwise the labelled first statement, the remaining
statements, then the terminator — combined through the canonicalizing
`Stmt.block`. -/
def codegen_block (fcx : FunctionCtx) (st : RefMap) (bb : Nat)
    (bbd : BasicBlockData) : Except String (RefMap × Stmt) := do
  let label := blockLabel bb
  match bbd.statements with
  | [] => do
      let (st', tcode) ← codegen_terminator fcx st bbd.terminator
      .ok (st', Stmt.block [Stmt.Label label tcode])
  | _ :: _ => do
      let (st1, statements) ← codegen_block_stmts fcx st label 0 bbd.statements
      let (st2, term) ← codegen_terminator fcx st1 bbd.terminator
      .ok (st2, Stmt.block (statements ++ [term]))

/-- Successors of a terminator, in `rustc` order (used by the traversal). -/
def Terminator.successors : Terminator → List Nat
  | .call _ _ _ target => target.toList
  | .ret => []
  | .goto target => [target]
  | .switchInt _ targets => targets.branches.map Prod.snd ++ [targets.otherwise]
  | .assert target => [target]
  | .otherTerminator => []

/-- Depth-first postorder from one block (`rustc_middle::mir::traversal`):
returns the enlarged visited set and the postorder list of newly visited
blocks.  The fuel bounds the recursion depth; `blocks.length` suffices since
every productive call visits a new block. -/
def postorderFrom (body : Body) : Nat → List Nat → Nat → List Nat × List Nat
  | 0, visited, _ => (visited, [])
  | fuel + 1, visited, bb =>
      if bb ∈ visited then (visited, [])
      else
        match body.blocks[bb]? with
        | none => (bb :: visited, [])
        | some bbd =>
            let start := (bb :: visited, ([] : List Nat))
            let step := bbd.terminator.successors.foldl
              (fun acc s =>
                let r := postorderFrom body fuel acc.1 s
                (r.1, acc.2 ++ r.2))
              start
            (step.1, step.2 ++ [bb])

/-- Mirror of `reverse_postorder(mir)`: reverse of the depth-first postorder
from the entry block `bb0`; only blocks reachable from the entry are
visited. -/
def reverse_postorder (body : Body) : List Nat :=
  (postorderFrom body (body.blocks.length + 1) [] 0).2.reverse

/-- Lowering of the traversal's block list (the `map` inside
`codegen_body`). -/
def codegen_blocks (fcx : FunctionCtx) (st : RefMap) :
    List Nat → Except String (RefMap × List Stmt)
  | [] => .ok (st, [])
  | bb :: rest =>
      match fcx.mir.blocks[bb]? with
      | none => .error "reverse_postorder yielded an unknown block"
      | some bbd => do
          let (st1, s) ← codegen_block fcx st bb bbd
          let (st2, ss) ← codegen_blocks fcx st1 rest
          .ok (st2, s :: ss)

/-- Mirror of `FunctionCtx::codegen_body`: lower every block in
reverse-postorder and wrap the results in a (raw, non-canonicalized)
`Block`. -/
def codegen_body (fcx : FunctionCtx) (st : RefMap) :
    Except String (RefMap × Stmt) := do
  let (st', statements) ← codegen_blocks fcx st (reverse_postorder fcx.mir)
  .ok (st', Stmt.Block statements)

/-- One step of `codegen_declare_variables`' `filter_map`, recursing over the
locals from index `i`: zero-size locals and mutable-reference locals are
skipped; every other local is declared at its lowered type. -/
def declare_variables_from (fcx : FunctionCtx) (i : Nat) :
    List MirTy → Except String (List Stmt)
  | [] => .ok []
  | typ :: rest =>
      if fcx.is_zst typ then declare_variables_from fcx (i + 1) rest
      else if isMutRef typ then declare_variables_from fcx (i + 1) rest
      else do
        let boogie_type ← codegen_type typ
        let rest' ← declare_variables_from fcx (i + 1) rest
        .ok (Stmt.Decl (localName i) boogie_type :: rest')

/-- Mirror of `FunctionCtx::codegen_declare_variables`. -/
def codegen_declare_variables (fcx : FunctionCtx) : Except String (List Stmt) :=
  declare_variables_from fcx 0 fcx.mir.local_decls

/-- Mirror of `BoogieCtx::codegen_function`: `None` for a Kani hook;
otherwise the declarations followed by the lowered body, wrapped in one
(raw) `Block`, as a contract-free, parameterless procedure named by the
mangled symbol name.  The fresh `FunctionCtx::new` starts with an empty
alias table. -/
def codegen_function (fcx : FunctionCtx) (instance_ : FnInstance) :
    Except String (Option Procedure) :=
  if (fcx.kani_intrinsic instance_.defName).isSome then .ok none
  else do
    let decl ← codegen_declare_variables fcx
    let (_, body) ← codegen_body fcx []
    .ok (some (Procedure.new instance_.symbolName [] [] none
      (Stmt.Block (decl ++ [body]))))

/-! Concrete bodies and contexts used to exercise the translation. -/

/-- A layout oracle for the examples: only the unit type `()` is
zero-size. -/
def exampleZst : MirTy → Bool
  | .tuple [] => true
  | _ => false

/-- An example context with no recognized intrinsics over the given body. -/
def exampleFcx (mir : Body) : FunctionCtx :=
  { is_zst := exampleZst, kani_intrinsic := fun _ => none, mir := mir }

/-- The statement `_2 = &_1` (take a reference to `x`). -/
def refStmt : Statement := .assign ⟨2, []⟩ (.ref ⟨1, []⟩)

/-- The statement `*_2 = const 5i32` (assign through the reference). -/
def derefStmt : Statement :=
  .assign ⟨2, [.deref]⟩ (.use (.constant (.val (.scalar 5) (.int .I32))))

/-- The body of `fn f() { let mut x: i32; let r = &mut x; *r = 5; }`:
locals `_0 : ()`, `_1 : i32`, `_2 : &mut i32`; one block `bb0` with the two
assignments and a `return`. -/
def mirRefDeref : Body :=
  { local_decls := [.tuple [], .int .I32, .ref true (.int .I32)],
    blocks := [{ statements := [refStmt, derefStmt], terminator := .ret }] }

/-- A body switching on `_1 : u8`: `bb0: switchInt(_1) [1 → bb1, otherwise →
bb2]`. -/
def mirSwitchU8 : Body :=
  { local_decls := [.tuple [], .uint .U8],
    blocks :=
      [{ statements := [],
         terminator := .switchInt (.copy ⟨1, []⟩) ⟨[(1, 1)], 2⟩ },
       { statements := [], terminator := .ret },
       { statements := [], terminator := .ret }] }

/-- A body switching on `_1 : bool`: `bb0: switchInt(_1) [false → bb1,
otherwise → bb2]`. -/
def mirSwitchBool : Body :=
  { local_decls := [.tuple [], .bool],
    blocks :=
      [{ statements := [],
         terminator := .switchInt (.copy ⟨1, []⟩) ⟨[(0, 1)], 2⟩ },
       { statements := [], terminator := .ret },
       { statements := [], terminator := .ret }] }

/-- The trivial body `fn g() {}`: one local `_0 : ()`, one empty block ending
in `return`. -/
def mirSingleBlock : Body :=
  { local_decls := [.tuple []],
    blocks := [{ statements := [], terminator := .ret }] }

/-- A body whose entry block just returns while the unreachable `bb1` holds a
three-arm switch (arm values 0 and 1 plus `otherwise`). -/
def mirDeadSwitch : Body :=
  { local_decls := [.tuple [], .uint .U8],
    blocks :=
      [{ statements := [], terminator := .ret },
       { statements := [],
         terminator := .switchInt (.copy ⟨1, []⟩) ⟨[(0, 0), (1, 0)], 0⟩ }] }

/-- A body whose entry block is a three-arm switch. -/
def mirSwitch3 : Body :=
  { local_decls := [.tuple [], .uint .U8],
    blocks :=
      [{ statements := [],
         terminator := .switchInt (.copy ⟨1, []⟩) ⟨[(0, 0), (1, 0)], 0⟩ }] }

/-- A body whose entry block assigns `_1 = _1 * _1` — multiplication is not a
supported binary operator. -/
def mirBadBinop : Body :=
  { local_decls := [.tuple [], .int .I32],
    blocks :=
      [{ statements :=
           [.assign ⟨1, []⟩ (.binaryOp .mul (.copy ⟨1, []⟩) (.copy ⟨1, []⟩))],
         terminator := .ret }] }

/-- A body whose entry block calls the non-intrinsic function `foo`. -/
def mirBadCall : Body :=
  { local_decls := [.tuple []],
    blocks :=
      [{ statements := [],
         terminator := .call (.constant (.val (.scalar 0) (.fnDef "foo")))
           [] ⟨0, []⟩ (some 1) },
       { statements := [], terminator := .ret }] }

/-- The binary operators `codegen_binary_op` supports (every other `BinOp`
falls into its final `todo!()`). -/
def supportedBinOp : BinOp → Bool
  | .eq | .addUnchecked | .add | .lt | .ge | .bitAnd | .bitOr | .shr | .shl =>
      true
  | _ => false

/-- An r-value the translator must reject: a binary operation (checked or
unchecked) whose operator is outside the supported set, or a cast whose kind
is not integer-to-integer. -/
def badRvalue (rv : Rvalue) : Prop :=
  (∃ op lhs rhs,
      (rv = Rvalue.binaryOp op lhs rhs ∨ rv = Rvalue.checkedBinaryOp op lhs rhs)
        ∧ supportedBinOp op = false)
    ∨ (∃ kind operand ty,
        rv = Rvalue.cast kind operand ty ∧ kind ≠ CastKind.intToInt)

/-- A basic block the translator must reject: a switch with three or more
arms, an assignment of a rejected r-value, or a call whose resolved callee is
not in the intrinsic table. -/
def badBlock (fcx : FunctionCtx) (bbd : BasicBlockData) : Prop :=
  (∃ discr targets,
      bbd.terminator = Terminator.switchInt discr targets
        ∧ 3 ≤ targets.branches.length + 1)
    ∨ (∃ place rv, Statement.assign place rv ∈ bbd.statements ∧ badRvalue rv)
    ∨ (∃ func args dest target fname,
        bbd.terminator = Terminator.call func args dest target
          ∧ operand_ty fcx func = .ok (.fnDef fname)
          ∧ fcx.kani_intrinsic fname = none)

mutual

/-- Whether a statement contains no one-element `Block` node anywhere — the
§3 invariant the spec asserts of every emitted procedure. -/
def Stmt.noSingletonBlock : Stmt → Bool
  | .Block ss => decide (ss.length ≠ 1) && Stmt.noSingletonBlockList ss
  | .Label _ s => Stmt.noSingletonBlock s
  | .If _ b e => Stmt.noSingletonBlock b && Stmt.noSingletonBlockOpt e
  | .While _ b => Stmt.noSingletonBlock b
  | _ => true

/-- `Stmt.noSingletonBlock` over a statement list. -/
def Stmt.noSingletonBlockList : List Stmt → Bool
  | [] => true
  | s :: ss => Stmt.noSingletonBlock s && Stmt.noSingletonBlockList ss

/-- `Stmt.noSingletonBlock` over an optional statement. -/
def Stmt.noSingletonBlockOpt : Option Stmt → Bool
  | none => true
  | some s => Stmt.noSingletonBlock s

end

/-- Whether a translation result is an abort (an error, so no procedure —
not even partial output — was produced). -/
def aborted {α : Type} : Except String α → Bool
  | .error _ => true
  | .ok _ => false

end KaniBoogie

namespace KaniBoogie

/-! Helper lemmas. -/

theorem except_bind_ok {α β : Type} (a : α) (f : α → Except String β) :
    (Except.ok a >>= f) = f a := rfl

theorem except_bind_error {α β : Type} (e : String) (f : α → Except String β) :
    ((Except.error e : Except String α) >>= f) = Except.error e := rfl

theorem except_bind_eq_ok {α β : Type} {x : Except String α}
    {f : α → Except String β} {b : β} :
    (x >>= f) = .ok b ↔ ∃ a, x = .ok a ∧ f a = .ok b := by
  cases x <;> simp [Bind.bind, Except.bind]

/-- Every branch of `codegen_binary_op` produces no side statement. -/
theorem codegen_binary_op_no_side (fcx : FunctionCtx) (st : RefMap)
    (binop : BinOp) (lhs rhs : Operand) (s : Option Stmt) (v : Expr)
    (h : codegen_binary_op fcx st binop lhs rhs = .ok (s, v)) : s = none := by
  cases binop <;>
    simp only [codegen_binary_op, except_bind_eq_ok] at h <;>
    (repeat' first
      | (simp only [except_bind_eq_ok] at h)
      | (obtain ⟨_, -, h⟩ := h)
      | (split at h)) <;>
    simp_all

/-- Every branch of `codegen_rvalue` produces no side statement: the first
component of a successful lowering is always `none` (the slot is reserved
for future overflow/bounds checks). -/
theorem codegen_rvalue_no_side (fcx : FunctionCtx) (st : RefMap)
    (rv : Rvalue) (s : Option Stmt) (v : Expr)
    (h : codegen_rvalue fcx st rv = .ok (s, v)) : s = none := by
  cases rv with
  | use operand =>
      simp only [codegen_rvalue, except_bind_eq_ok] at h
      obtain ⟨o, -, h⟩ := h
      simp_all
  | unaryOp op operand =>
      cases op <;>
        simp only [codegen_rvalue, codegen_unary_op, except_bind_eq_ok] at h <;>
        obtain ⟨o, -, h⟩ := h <;> simp_all
  | binaryOp op lhs rhs =>
      exact codegen_binary_op_no_side fcx st op lhs rhs s v h
  | checkedBinaryOp op lhs rhs =>
      exact codegen_binary_op_no_side fcx st op lhs rhs s v h
  | ref p =>
      simp only [codegen_rvalue, except_bind_eq_ok] at h
      obtain ⟨o, -, h⟩ := h
      simp_all
  | cast kind operand ty =>
      simp only [codegen_rvalue] at h
      split at h
      · simp only [except_bind_eq_ok] at h
        (repeat' first
          | (simp only [except_bind_eq_ok] at h)
          | (obtain ⟨_, -, h⟩ := h)
          | (split at h)) <;>
        simp_all
      · simp_all
  | otherRvalue => simp_all [codegen_rvalue]

mutual

theorem MirTy.beq_refl : ∀ t : MirTy, MirTy.beq t t = true
  | .bool => rfl
  | .int _ => by simp [MirTy.beq]
  | .uint _ => by simp [MirTy.beq]
  | .ref m t => by simp [MirTy.beq, MirTy.beq_refl t]
  | .array e l => by simp [MirTy.beq, MirTy.beq_refl e]
  | .tuple ts => by simp [MirTy.beq, MirTy.beqList_refl ts]
  | .adt _ _ => by simp [MirTy.beq]
  | .fnDef _ => by simp [MirTy.beq]
  | .unsupported => rfl

theorem MirTy.beqList_refl : ∀ ts : List MirTy, MirTy.beqList ts ts = true
  | [] => rfl
  | t :: ts => by simp [MirTy.beqList, MirTy.beq_refl t, MirTy.beqList_refl ts]

end

/-- Looking up the place just inserted returns the inserted expression. -/
theorem RefMap.get_insert (st : RefMap) (p : Place) (e : Expr) :
    (st.insert p e).get p = some e := by
  simp [RefMap.get, RefMap.insert, List.find?]

/-- C1: an assignment whose right-hand side takes a reference to a place
records, in the alias table keyed by the exact assigned place, the lowered
expression for the referent, and emits only the `Null` no-op — zero
destination statements; and an assignment through a single-level dereference
of a place whose base local has a recorded alias emits exactly one
`Assignment` whose target is that resolved expression rendered as a name and
whose value is the lowered r-value. -/
theorem c1_ref_alias_and_deref_assign :
    (∀ (fcx : FunctionCtx) (st : RefMap) (place rhs : Place) (e : Expr),
      codegen_place fcx st rhs = .ok e →
      codegen_statement fcx st (.assign place (.ref rhs)) =
          .ok (st.insert place e, Stmt.Null) ∧
        (st.insert place e).get place = some e)
    ∧ (∀ (fcx : FunctionCtx) (st : RefMap) (place : Place) (rvalue : Rvalue)
        (resolved : Expr) (side : Option Stmt) (v : Expr),
      is_deref place = true →
      st.get ⟨place.base, []⟩ = some resolved →
      (∀ p, rvalue ≠ Rvalue.ref p) →
      codegen_rvalue fcx st rvalue = .ok (side, v) →
      codegen_statement fcx st (.assign place rvalue) =
        .ok (st, Stmt.Assignment resolved.render v)) := by
  constructor
  · intro fcx st place rhs e h
    exact ⟨by simp [codegen_statement, h, except_bind_ok], RefMap.get_insert st place e⟩
  · intro fcx st place rvalue resolved side v hd hget hne hrv
    have hside := codegen_rvalue_no_side fcx st rvalue side v hrv
    subst hside
    cases rvalue
    case ref p => exact absurd rfl (hne p)
    all_goals
      simp [codegen_statement, hd, hget, hrv, add_statement, except_bind_ok]

/-- Witness for C1: on `fn f() { let mut x: i32; let r = &mut x; *r = 5; }`
the reference-taking assignment lowers to `Null` and records the alias
`_2 ↦ _1`; the dereferencing assignment lowers to the single statement
`_1 := 5bv32`; and the whole function lowers to a procedure with no
pointer-typed variable declaration (only `_1` is declared). -/
theorem c1_witness :
    codegen_statement (exampleFcx mirRefDeref) [] refStmt =
        .ok ([(⟨2, []⟩, Expr.Symbol "_1")], Stmt.Null) ∧
      codegen_statement (exampleFcx mirRefDeref)
          [(⟨2, []⟩, Expr.Symbol "_1")] derefStmt =
        .ok ([(⟨2, []⟩, Expr.Symbol "_1")],
          Stmt.Assignment "_1" (Expr.Literal (Literal.bv 32 5))) ∧
      codegen_function (exampleFcx mirRefDeref) ⟨"f", "sym_f"⟩ =
        .ok (some (Procedure.new "sym_f" [] [] none
          (Stmt.Block [Stmt.Decl "_1" (BType.Bv 32),
            Stmt.Block [Stmt.Block
              [Stmt.Label "bb0" Stmt.Null,
               Stmt.Assignment "_1" (Expr.Literal (Literal.bv 32 5)),
               Stmt.Return]]]))) := by
  refine ⟨?_, ?_, rfl⟩
  · exact (c1_ref_alias_and_deref_assign.1 (exampleFcx mirRefDeref) []
      ⟨2, []⟩ ⟨1, []⟩ (Expr.Symbol "_1") rfl).1
  · exact c1_ref_alias_and_deref_assign.2 (exampleFcx mirRefDeref)
      [(⟨2, []⟩, Expr.Symbol "_1")] ⟨2, [.deref]⟩
      (.use (.constant (.val (.scalar 5) (.int .I32))))
      (Expr.Symbol "_1") none (Expr.Literal (Literal.bv 32 5))
      rfl rfl (fun p h => Rvalue.noConfusion h) rfl

/-- Counterexample for C2: switching on a `u8` discriminant with non-default
arm value 1 emits the comparison literal `1bv128` — a 128-bit bit-vector
literal — not a literal at the discriminant's exact 8-bit source width as the
claim states. -/
theorem c2_counterexample :
    codegen_switch_int (exampleFcx mirSwitchU8) [] (.copy ⟨1, []⟩)
        ⟨[(1, 1)], 2⟩ =
      .ok (Stmt.If
        (Expr.BinaryOp BinaryOp.Eq (Expr.Symbol "_1")
          (Expr.Literal (Literal.bv 128 1)))
        (Stmt.Goto "bb1") (some (Stmt.Goto "bb2"))) ∧
      Literal.bv 128 1 ≠ Literal.bv 8 1 :=
  ⟨rfl, by decide⟩

/-- C2 (amended): for a two-arm switch, a boolean discriminant yields
`If(Eq(discr, Bool(value ≠ 0)), Goto(arm), Goto(otherwise))`; an unsigned
integer discriminant yields the comparison literal as a 128-bit bit-vector
literal regardless of the source width; a signed integer discriminant is
unreachable and aborts. -/
theorem c2_switch_literal_amended :
    (∀ (fcx : FunctionCtx) (st : RefMap) (discr : Operand) (v a b : Nat)
      (op : Expr),
      codegen_operand fcx st discr = .ok op →
      operand_ty fcx discr = .ok .bool →
      codegen_switch_int fcx st discr ⟨[(v, a)], b⟩ =
        .ok (Stmt.If
          (Expr.BinaryOp BinaryOp.Eq op (Expr.Literal (Literal.Bool (v != 0))))
          (Stmt.Goto (blockLabel a)) (some (Stmt.Goto (blockLabel b)))))
    ∧ (∀ (fcx : FunctionCtx) (st : RefMap) (discr : Operand) (v a b : Nat)
        (op : Expr) (ut : UintTy),
      codegen_operand fcx st discr = .ok op →
      operand_ty fcx discr = .ok (.uint ut) →
      codegen_switch_int fcx st discr ⟨[(v, a)], b⟩ =
        .ok (Stmt.If
          (Expr.BinaryOp BinaryOp.Eq op (Expr.Literal (Literal.bv 128 v)))
          (Stmt.Goto (blockLabel a)) (some (Stmt.Goto (blockLabel b)))))
    ∧ (∀ (fcx : FunctionCtx) (st : RefMap) (discr : Operand) (v a b : Nat)
        (op : Expr) (it : IntTy),
      codegen_operand fcx st discr = .ok op →
      operand_ty fcx discr = .ok (.int it) →
      ∃ e, codegen_switch_int fcx st discr ⟨[(v, a)], b⟩ = .error e) := by
  refine ⟨?_, ?_, ?_⟩
  · intro fcx st discr v a b op hop hty
    simp [codegen_switch_int, hop, hty, except_bind_ok]
  · intro fcx st discr v a b op ut hop hty
    simp [codegen_switch_int, hop, hty, except_bind_ok]
  · intro fcx st discr v a b op it hop hty
    exact ⟨"unreachable: switch on this discriminant type",
      by simp [codegen_switch_int, hop, hty, except_bind_ok,
        except_bind_error]⟩

/-- Witness for C2 (amended): the boolean and unsigned cases at concrete
inputs. -/
theorem c2_witness :
    codegen_switch_int (exampleFcx mirSwitchBool) [] (.copy ⟨1, []⟩)
        ⟨[(0, 1)], 2⟩ =
      .ok (Stmt.If
        (Expr.BinaryOp BinaryOp.Eq (Expr.Symbol "_1")
          (Expr.Literal (Literal.Bool false)))
        (Stmt.Goto "bb1") (some (Stmt.Goto "bb2"))) ∧
      codegen_switch_int (exampleFcx mirSwitchU8) [] (.copy ⟨1, []⟩)
        ⟨[(1, 1)], 2⟩ =
      .ok (Stmt.If
        (Expr.BinaryOp BinaryOp.Eq (Expr.Symbol "_1")
          (Expr.Literal (Literal.bv 128 1)))
        (Stmt.Goto "bb1") (some (Stmt.Goto "bb2"))) :=
  ⟨c2_switch_literal_amended.1 (exampleFcx mirSwitchBool) [] (.copy ⟨1, []⟩)
      0 1 2 (Expr.Symbol "_1") rfl rfl,
    c2_switch_literal_amended.2.1 (exampleFcx mirSwitchU8) [] (.copy ⟨1, []⟩)
      1 1 2 (Expr.Symbol "_1") .U8 rfl rfl⟩

/-- C3: a two-arm boolean switch with arms `{false → block a, otherwise →
block b}` lowers to `If(Eq(discr, Bool(false)), Goto(a), Goto(b))`, the goto
labels being exactly the debug renderings of the source block identifiers. -/
theorem c3_bool_switch (fcx : FunctionCtx) (st : RefMap) (discr : Operand)
    (a b : Nat) (op : Expr)
    (hop : codegen_operand fcx st discr = .ok op)
    (hty : operand_ty fcx discr = .ok .bool) :
    codegen_switch_int fcx st discr ⟨[(0, a)], b⟩ =
      .ok (Stmt.If
        (Expr.BinaryOp BinaryOp.Eq op (Expr.Literal (Literal.Bool false)))
        (Stmt.Goto (blockLabel a)) (some (Stmt.Goto (blockLabel b)))) := by
  simp [codegen_switch_int, hop, hty, except_bind_ok]

/-- C4: integer-to-integer casts compare the source and destination widths —
narrowing extracts the low `to_width` bits, widening sign-extends signed
sources and zero-extends unsigned sources by `to_width - from_width` bits,
and equal widths return the bare lowered operand with no wrapper node. -/
theorem c4_int_cast (fcx : FunctionCtx) (st : RefMap) (operand : Operand)
    (castTy : MirTy) (op : Expr) (fromTy : MirTy) (fw tw : Nat)
    (hty : operand_ty fcx operand = .ok fromTy)
    (hop : codegen_operand fcx st operand = .ok op)
    (hfrom : codegen_type fromTy = .ok (.Bv fw))
    (hto : codegen_type castTy = .ok (.Bv tw)) :
    (fw > tw →
      codegen_rvalue fcx st (.cast .intToInt operand castTy) =
        .ok (none, Expr.Extract op tw 0)) ∧
    (fw < tw → ∀ it : IntTy, fromTy = .int it →
      codegen_rvalue fcx st (.cast .intToInt operand castTy) =
        .ok (none, Expr.SignExtend op (tw - fw))) ∧
    (fw < tw → ∀ ut : UintTy, fromTy = .uint ut →
      codegen_rvalue fcx st (.cast .intToInt operand castTy) =
        .ok (none, Expr.ZeroExtend op (tw - fw))) ∧
    (fw = tw →
      codegen_rvalue fcx st (.cast .intToInt operand castTy) =
        .ok (none, op)) := by
  refine ⟨?_, ?_, ?_, ?_⟩
  · intro hgt
    simp [codegen_rvalue, hty, hop, hfrom, hto, except_bind_ok, hgt]
  · intro hlt it hint
    subst hint
    have hngt : ¬ fw > tw := by omega
    simp [codegen_rvalue, hty, hop, hfrom, hto, except_bind_ok, hngt, hlt]
  · intro hlt ut huint
    subst huint
    have hngt : ¬ fw > tw := by omega
    simp [codegen_rvalue, hty, hop, hfrom, hto, except_bind_ok, hngt, hlt]
  · intro heq
    subst heq
    simp [codegen_rvalue, hty, hop, hfrom, hto, except_bind_ok]

/-- Witness for C4: `i32 → i8` extracts the low 8 bits, `i8 → i32`
sign-extends by 24 bits, `u8 → u32` zero-extends by 24 bits, and `u32 → u32`
returns the bare operand. -/
theorem c4_witness :
    codegen_rvalue (exampleFcx mirRefDeref) []
        (.cast .intToInt (.constant (.val (.scalar 5) (.int .I32)))
          (.int .I8)) =
      .ok (none, Expr.Extract (Expr.Literal (Literal.bv 32 5)) 8 0) ∧
    codegen_rvalue (exampleFcx mirRefDeref) []
        (.cast .intToInt (.constant (.val (.scalar 5) (.int .I8)))
          (.int .I32)) =
      .ok (none, Expr.SignExtend (Expr.Literal (Literal.bv 8 5)) 24) ∧
    codegen_rvalue (exampleFcx mirRefDeref) []
        (.cast .intToInt (.constant (.val (.scalar 5) (.uint .U8)))
          (.uint .U32)) =
      .ok (none, Expr.ZeroExtend (Expr.Literal (Literal.bv 8 5)) 24) ∧
    codegen_rvalue (exampleFcx mirRefDeref) []
        (.cast .intToInt (.constant (.val (.scalar 5) (.uint .U32)))
          (.uint .U32)) =
      .ok (none, Expr.Literal (Literal.bv 32 5)) := by
  refine ⟨?_, ?_, ?_, ?_⟩
  · exact (c4_int_cast (exampleFcx mirRefDeref) []
      (.constant (.val (.scalar 5) (.int .I32))) (.int .I8)
      (Expr.Literal (Literal.bv 32 5)) (.int .I32) 32 8
      rfl rfl rfl rfl).1 (by omega)
  · exact ((c4_int_cast (exampleFcx mirRefDeref) []
      (.constant (.val (.scalar 5) (.int .I8))) (.int .I32)
      (Expr.Literal (Literal.bv 8 5)) (.int .I8) 8 32
      rfl rfl rfl rfl).2.1 (by omega)) .I8 rfl
  · exact ((c4_int_cast (exampleFcx mirRefDeref) []
      (.constant (.val (.scalar 5) (.uint .U8))) (.uint .U32)
      (Expr.Literal (Literal.bv 8 5)) (.uint .U8) 8 32
      rfl rfl rfl rfl).2.2.1 (by omega)) .U8 rfl
  · exact (c4_int_cast (exampleFcx mirRefDeref) []
      (.constant (.val (.scalar 5) (.uint .U32))) (.uint .U32)
      (Expr.Literal (Literal.bv 32 5)) (.uint .U32) 32 32
      rfl rfl rfl rfl).2.2.2 rfl

/-- C8: ordering comparisons on operands sharing a type dispatch to the
signed-less-than builtin for signed types and the unsigned-less-than builtin
for unsigned types; greater-or-equal is the logical negation (`Not`) of the
corresponding less-than call. -/
theorem c8_ordering_comparisons (fcx : FunctionCtx) (st : RefMap)
    (lhs rhs : Operand) (t : MirTy) (l r : Expr)
    (hl : codegen_operand fcx st lhs = .ok l)
    (hr : codegen_operand fcx st rhs = .ok r)
    (htl : operand_ty fcx lhs = .ok t)
    (htr : operand_ty fcx rhs = .ok t) :
    (∀ it : IntTy, t = .int it →
      codegen_binary_op fcx st .lt lhs rhs =
          .ok (none,
            Expr.function_call SmtBvBuiltin.SignedLessThan.as_ref [l, r]) ∧
        codegen_binary_op fcx st .ge lhs rhs =
          .ok (none, Expr.not
            (Expr.function_call SmtBvBuiltin.SignedLessThan.as_ref [l, r]))) ∧
    (∀ ut : UintTy, t = .uint ut →
      codegen_binary_op fcx st .lt lhs rhs =
          .ok (none,
            Expr.function_call SmtBvBuiltin.UnsignedLessThan.as_ref [l, r]) ∧
        codegen_binary_op fcx st .ge lhs rhs =
          .ok (none, Expr.not
            (Expr.function_call SmtBvBuiltin.UnsignedLessThan.as_ref [l, r]))) := by
  constructor
  · intro it hint
    subst hint
    constructor <;>
      simp [codegen_binary_op, hl, hr, htl, htr, except_bind_ok,
        MirTy.beq_refl, Expr.function_call, Expr.not]
  · intro ut huint
    subst huint
    constructor <;>
      simp [codegen_binary_op, hl, hr, htl, htr, except_bind_ok,
        MirTy.beq_refl, Expr.function_call, Expr.not]

/-- Witness for C8: `lt`/`ge` on two `i32` constants and on two `u8`
constants. -/
theorem c8_witness :
    codegen_binary_op (exampleFcx mirRefDeref) [] .lt
        (.constant (.val (.scalar 1) (.int .I32)))
        (.constant (.val (.scalar 2) (.int .I32))) =
      .ok (none, Expr.FunctionCall "$BvSignedLessThan"
        [Expr.Literal (Literal.bv 32 1), Expr.Literal (Literal.bv 32 2)]) ∧
    codegen_binary_op (exampleFcx mirRefDeref) [] .ge
        (.constant (.val (.scalar 1) (.uint .U8)))
        (.constant (.val (.scalar 2) (.uint .U8))) =
      .ok (none, Expr.UnaryOp UnaryOp.Not (Expr.FunctionCall
        "$BvUnsignedLessThan"
        [Expr.Literal (Literal.bv 8 1), Expr.Literal (Literal.bv 8 2)])) :=
  ⟨((c8_ordering_comparisons (exampleFcx mirRefDeref) []
      (.constant (.val (.scalar 1) (.int .I32)))
      (.constant (.val (.scalar 2) (.int .I32))) (.int .I32)
      (Expr.Literal (Literal.bv 32 1)) (Expr.Literal (Literal.bv 32 2))
      rfl rfl rfl rfl).1 .I32 rfl).1,
    ((c8_ordering_comparisons (exampleFcx mirRefDeref) []
      (.constant (.val (.scalar 1) (.uint .U8)))
      (.constant (.val (.scalar 2) (.uint .U8))) (.uint .U8)
      (Expr.Literal (Literal.bv 8 1)) (Expr.Literal (Literal.bv 8 2))
      rfl rfl rfl rfl).2 .U8 rfl).2⟩

/-- C7 (evaluating the preamble at the failing registry entry): the preamble
declares each of the eight builtin entries exactly once, in registry order —
but the unary bitwise-not entry `BvNot` is declared by `smt_builtin_binop`
with TWO parameters (`lhs`, `rhs`), while `codegen_unary_op` lowers `UnOp::Neg`
to a call of `BvNot` with a single argument; the claim's "one parameter for
the unary entry" is what the code's own call site expects. -/
theorem c7_unary_builtin_two_params :
    (add_preamble BoogieProgram.new).functions.map (fun f => f.name) =
      ["$BvUnsignedLessThan<T>", "$BvSignedLessThan<T>", "$BvAdd<T>",
       "$BvOr<T>", "$BvAnd<T>", "$BvShl<T>", "$BvShr<T>", "BvNot<T>"] ∧
    (smt_builtin_binop SmtBvBuiltin.Not.as_ref SmtBvBuiltin.Not.smt_op_name
        SmtBvBuiltin.Not.is_predicate).parameters.length = 2 ∧
    (smt_builtin_binop SmtBvBuiltin.Not.as_ref SmtBvBuiltin.Not.smt_op_name
        SmtBvBuiltin.Not.is_predicate).attributes =
      [":bvbuiltin \"bvnot\""] ∧
    codegen_unary_op (exampleFcx mirRefDeref) [] .neg
        (.constant (.val (.scalar 5) (.int .I32))) =
      .ok (none,
        Expr.FunctionCall "BvNot" [Expr.Literal (Literal.bv 32 5)]) ∧
    [Expr.Literal (Literal.bv 32 5)].length = 1 :=
  ⟨rfl, rfl, rfl, rfl, rfl⟩

/-- Auxiliary for C9: the recursive worker of `codegen_declare_variables`
emits one `Decl` per local that is neither zero-size nor a mutable
reference, and nothing else. -/
theorem declare_variables_from_spec (fcx : FunctionCtx) :
    ∀ (ts : List MirTy) (i : Nat) (ds : List Stmt),
      declare_variables_from fcx i ts = .ok ds →
      ds.length =
          (ts.filter (fun t => !(fcx.is_zst t) && !(isMutRef t))).length ∧
        ∀ s ∈ ds, ∃ n ty, s = Stmt.Decl n ty := by
  intro ts
  induction ts with
  | nil =>
      intro i ds h
      simp only [declare_variables_from] at h
      cases h
      simp
  | cons t rest ih =>
      intro i ds h
      by_cases hz : fcx.is_zst t
      · simp only [declare_variables_from, hz, if_true] at h
        have := ih (i + 1) ds h
        simpa [List.filter, hz] using this
      · by_cases hm : isMutRef t
        · simp only [declare_variables_from, hz, hm, if_true, if_false] at h
          have := ih (i + 1) ds h
          simpa [List.filter, hz, hm] using this
        · rcases hct : codegen_type t with e | bt <;>
            rcases hrest : declare_variables_from fcx (i + 1) rest with
              e' | rest' <;>
            simp [declare_variables_from, hz, hm, hct, hrest,
              except_bind_ok, except_bind_error] at h
          subst h
          have := ih (i + 1) rest' hrest
          refine ⟨by simpa [List.filter, hz, hm] using this.1, ?_⟩
          intro s hs
          rcases List.mem_cons.mp hs with hs | hs
          · exact ⟨localName i, bt, hs⟩
          · exact this.2 s hs

/-- C9: the number of `Decl` statements emitted for a function equals the
number of locals whose type is non-zero-size and not a mutable reference
(and everything emitted is a `Decl`). -/
theorem c9_decl_count (fcx : FunctionCtx) (decls : List Stmt)
    (h : codegen_declare_variables fcx = .ok decls) :
    decls.length =
        (fcx.mir.local_decls.filter
          (fun t => !(fcx.is_zst t) && !(isMutRef t))).length ∧
      ∀ s ∈ decls, ∃ n ty, s = Stmt.Decl n ty :=
  declare_variables_from_spec fcx fcx.mir.local_decls 0 decls h

/-- Witness for C9: on the reference example (`_0 : ()` zero-size, `_1 : i32`
declared, `_2 : &mut i32` skipped) exactly one `Decl` is emitted. -/
theorem c9_witness :
    codegen_declare_variables (exampleFcx mirRefDeref) =
        .ok [Stmt.Decl "_1" (BType.Bv 32)] ∧
      [Stmt.Decl "_1" (BType.Bv 32)].length =
        ((exampleFcx mirRefDeref).mir.local_decls.filter
          (fun t => !((exampleFcx mirRefDeref).is_zst t) &&
            !(isMutRef t))).length :=
  ⟨rfl, (c9_decl_count (exampleFcx mirRefDeref)
    [Stmt.Decl "_1" (BType.Bv 32)] rfl).1⟩

/-- C10: a translated non-hook function becomes a procedure with the mangled
symbol name, empty parameter and return-parameter lists, no contract, and a
body `Block` consisting of the locals' `Decl` statements followed by the
lowered function body. -/
theorem c10_procedure_shape (fcx : FunctionCtx) (instance_ : FnInstance)
    (decls : List Stmt) (st' : RefMap) (body : Stmt)
    (hhook : fcx.kani_intrinsic instance_.defName = none)
    (hdecl : codegen_declare_variables fcx = .ok decls)
    (hbody : codegen_body fcx [] = .ok (st', body)) :
    codegen_function fcx instance_ =
      .ok (some (Procedure.new instance_.symbolName [] [] none
        (Stmt.Block (decls ++ [body])))) := by
  simp [codegen_function, hhook, hdecl, hbody, except_bind_ok]

/-- Witness for C10 on the reference example. -/
theorem c10_witness :
    codegen_function (exampleFcx mirRefDeref) ⟨"f", "sym_f"⟩ =
      .ok (some (Procedure.new "sym_f" [] [] none
        (Stmt.Block ([Stmt.Decl "_1" (BType.Bv 32)] ++
          [Stmt.Block [Stmt.Block
            [Stmt.Label "bb0" Stmt.Null,
             Stmt.Assignment "_1" (Expr.Literal (Literal.bv 32 5)),
             Stmt.Return]]])))) :=
  c10_procedure_shape (exampleFcx mirRefDeref) ⟨"f", "sym_f"⟩
    [Stmt.Decl "_1" (BType.Bv 32)] [(⟨2, []⟩, Expr.Symbol "_1")]
    (Stmt.Block [Stmt.Block
      [Stmt.Label "bb0" Stmt.Null,
       Stmt.Assignment "_1" (Expr.Literal (Literal.bv 32 5)),
       Stmt.Return]])
    rfl rfl rfl

/-- Auxiliary for C6: `Stmt.block` on a list that is not a singleton is the
raw `Block` of that list. -/
theorem stmt_block_of_ne_one (ss : List Stmt) (h : ss.length ≠ 1) :
    Stmt.block ss = Stmt.Block ss := by
  match ss with
  | [] => rfl
  | [s] => simp at h
  | a :: b :: t => rfl

/-- Auxiliary for C6: lowering a block's statement list preserves its
length. -/
theorem codegen_block_stmts_length (fcx : FunctionCtx) (label : String) :
    ∀ (l : List Statement) (st : RefMap) (idx : Nat) (st' : RefMap)
      (out : List Stmt),
      codegen_block_stmts fcx st label idx l = .ok (st', out) →
      out.length = l.length := by
  intro l
  induction l with
  | nil =>
      intro st idx st' out h
      simp only [codegen_block_stmts, Except.ok.injEq, Prod.mk.injEq] at h
      simp [← h.2]
  | cons s rest ih =>
      intro st idx st' out h
      rcases hs : codegen_statement fcx st s with e | p
      · simp [codegen_block_stmts, hs, except_bind_error] at h
      · obtain ⟨st1, lowered⟩ := p
        rcases hr : codegen_block_stmts fcx st1 label (idx + 1) rest with
          e | q
        · simp [codegen_block_stmts, hs, hr, except_bind_ok,
            except_bind_error] at h
        · obtain ⟨st2, outr⟩ := q
          simp only [codegen_block_stmts, hs, hr, except_bind_ok,
            Except.ok.injEq, Prod.mk.injEq] at h
          have := ih st1 (idx + 1) st2 outr hr
          simp [← h.2, this]

/-- Counterexample for C6: translating the trivial function `fn g() {}`
yields a procedure whose body contains one-element `Block` nodes — the
procedure body is `Block [Block [Label "bb0" Return]]` (built directly by
`codegen_function` and `codegen_body`), so the claimed invariant fails on an
emitted procedure. -/
theorem c6_counterexample :
    codegen_function (exampleFcx mirSingleBlock) ⟨"g", "sym_g"⟩ =
        .ok (some (Procedure.new "sym_g" [] [] none
          (Stmt.Block [Stmt.Block [Stmt.Label "bb0" Stmt.Return]]))) ∧
      Stmt.noSingletonBlock
        (Stmt.Block [Stmt.Block [Stmt.Label "bb0" Stmt.Return]]) = false :=
  ⟨rfl, rfl⟩

/-- C6 (amended): the canonicalizing constructor `Stmt.block`, which is what
basic-block lowering uses, never yields a one-element `Block` — a singleton
list is returned as its sole statement and every other list as one raw
`Block` preserving order — and consequently `codegen_block` never returns a
one-element `Block`; however the raw `Block` nodes built directly by
`codegen_body` and `codegen_function` may contain exactly one statement. -/
theorem c6_block_canonicalization :
    (∀ s : Stmt, Stmt.block [s] = s)
    ∧ (∀ ss : List Stmt, ss.length ≠ 1 → Stmt.block ss = Stmt.Block ss)
    ∧ (∀ (fcx : FunctionCtx) (st : RefMap) (bb : Nat) (bbd : BasicBlockData)
        (st' : RefMap) (out : Stmt),
        codegen_block fcx st bb bbd = .ok (st', out) →
        ∀ s : Stmt, out ≠ Stmt.Block [s]) := by
  refine ⟨fun s => rfl, stmt_block_of_ne_one, ?_⟩
  intro fcx st bb bbd st' out h s
  cases hstmts : bbd.statements with
  | nil =>
      rcases hterm : codegen_terminator fcx st bbd.terminator with e | p
      · simp [codegen_block, hstmts, hterm, except_bind_error] at h
      · obtain ⟨st1, tcode⟩ := p
        simp only [codegen_block, hstmts, hterm, except_bind_ok,
          Except.ok.injEq, Prod.mk.injEq] at h
        rw [← h.2]
        simp [Stmt.block]
  | cons s0 rest =>
      rcases hss : codegen_block_stmts fcx st (blockLabel bb) 0 (s0 :: rest)
        with e | p
      · simp [codegen_block, hstmts, hss, except_bind_error] at h
      · obtain ⟨st1, ss⟩ := p
        rcases hterm : codegen_terminator fcx st1 bbd.terminator with e | q
        · simp [codegen_block, hstmts, hss, hterm, except_bind_ok,
            except_bind_error] at h
        · obtain ⟨st2, term⟩ := q
          simp only [codegen_block, hstmts, hss, hterm, except_bind_ok,
            Except.ok.injEq, Prod.mk.injEq] at h
          have hlen : ss.length = rest.length + 1 :=
            codegen_block_stmts_length fcx (blockLabel bb) (s0 :: rest)
              st 0 st1 ss hss
          have hlen2 : (ss ++ [term]).length ≠ 1 := by
            simp [hlen]
          rw [← h.2, stmt_block_of_ne_one (ss ++ [term]) hlen2]
          intro hcontra
          have := congrArg (fun st => match st with
            | Stmt.Block l => l.length
            | _ => 0) hcontra
          simp [hlen] at this

/-- Witness for C6 (amended): a two-statement list is kept as a raw `Block`,
a one-statement list is unwrapped, and the concrete lowering of `bb0` of the
reference example is a three-statement `Block`, not a singleton. -/
theorem c6_witness :
    Stmt.block [Stmt.Return] = Stmt.Return ∧
      Stmt.block [Stmt.Null, Stmt.Return] =
        Stmt.Block [Stmt.Null, Stmt.Return] ∧
      codegen_block (exampleFcx mirRefDeref) [] 0
          { statements := [refStmt, derefStmt], terminator := .ret } =
        .ok ([(⟨2, []⟩, Expr.Symbol "_1")],
          Stmt.Block
            [Stmt.Label "bb0" Stmt.Null,
             Stmt.Assignment "_1" (Expr.Literal (Literal.bv 32 5)),
             Stmt.Return]) ∧
      ∀ s : Stmt,
        Stmt.Block
            [Stmt.Label "bb0" Stmt.Null,
             Stmt.Assignment "_1" (Expr.Literal (Literal.bv 32 5)),
             Stmt.Return] ≠ Stmt.Block [s] :=
  ⟨c6_block_canonicalization.1 Stmt.Return,
    c6_block_canonicalization.2.1 [Stmt.Null, Stmt.Return] (by simp),
    rfl,
    c6_block_canonicalization.2.2 (exampleFcx mirRefDeref) [] 0
      { statements := [refStmt, derefStmt], terminator := .ret }
      [(⟨2, []⟩, Expr.Symbol "_1")]
      (Stmt.Block
        [Stmt.Label "bb0" Stmt.Null,
         Stmt.Assignment "_1" (Expr.Literal (Literal.bv 32 5)),
         Stmt.Return]) rfl⟩

/-- Auxiliary for C5: an unsupported binary operator makes
`codegen_binary_op` abort, whatever the operands and alias table. -/
theorem codegen_binary_op_unsupported (fcx : FunctionCtx) (st : RefMap)
    (op : BinOp) (lhs rhs : Operand) (h : supportedBinOp op = false) :
    ∃ e, codegen_binary_op fcx st op lhs rhs = .error e := by
  rcases hl : codegen_operand fcx st lhs with e | l
  · exact ⟨e, by simp [codegen_binary_op, hl, except_bind_error]⟩
  · rcases hr : codegen_operand fcx st rhs with e | r
    · exact ⟨e, by simp [codegen_binary_op, hl, hr, except_bind_ok,
        except_bind_error]⟩
    · cases op <;> simp [supportedBinOp] at h <;>
        exact ⟨"todo: unsupported binary operation",
          by simp [codegen_binary_op, hl, hr, except_bind_ok]⟩

/-- Auxiliary for C5: a rejected r-value makes `codegen_rvalue` abort. -/
theorem codegen_rvalue_bad (fcx : FunctionCtx) (st : RefMap) (rv : Rvalue)
    (h : badRvalue rv) : ∃ e, codegen_rvalue fcx st rv = .error e := by
  rcases h with ⟨op, lhs, rhs, hshape, hop⟩ | ⟨kind, operand, ty, hshape, hkind⟩
  · rcases hshape with rfl | rfl <;>
    · obtain ⟨e, he⟩ := codegen_binary_op_unsupported fcx st op lhs rhs hop
      exact ⟨e, by simp [codegen_rvalue, he]⟩
  · subst hshape
    exact ⟨"todo: unsupported cast kind", by simp [codegen_rvalue, hkind]⟩

/-- Auxiliary for C5: an assignment of a rejected r-value makes
`codegen_statement` abort. -/
theorem codegen_statement_bad (fcx : FunctionCtx) (st : RefMap)
    (place : Place) (rv : Rvalue) (hbad : badRvalue rv) :
    ∃ e, codegen_statement fcx st (.assign place rv) = .error e := by
  obtain ⟨e, he⟩ := codegen_rvalue_bad fcx st rv hbad
  have hnref : ∀ p, rv ≠ Rvalue.ref p := by
    rcases hbad with ⟨op, lhs, rhs, hshape, -⟩ | ⟨kind, operand, ty, hshape, -⟩
    · rcases hshape with rfl | rfl <;> exact fun p hp => Rvalue.noConfusion hp
    · subst hshape; exact fun p hp => Rvalue.noConfusion hp
  cases rv
  case ref p => exact absurd rfl (hnref p)
  all_goals {
    by_cases hd : is_deref place
    · cases hget : RefMap.get st ⟨place.base, []⟩ with
      | none =>
          exact ⟨"unwrap: dereferenced place has no recorded alias",
            by simp [codegen_statement, hd, hget]⟩
      | some ex =>
          exact ⟨e, by simp [codegen_statement, hd, hget, he,
            except_bind_error]⟩
    · exact ⟨e, by simp [codegen_statement, hd, he, except_bind_error]⟩
  }

/-- Auxiliary for C5: a rejected assignment anywhere in a block's statement
list makes the statement-list lowering abort. -/
theorem codegen_block_stmts_bad (fcx : FunctionCtx) (label : String) :
    ∀ (l : List Statement) (place : Place) (rv : Rvalue),
      Statement.assign place rv ∈ l → badRvalue rv →
      ∀ (st : RefMap) (idx : Nat),
        ∃ e, codegen_block_stmts fcx st label idx l = .error e := by
  intro l
  induction l with
  | nil => intro place rv hmem; cases hmem
  | cons s rest ih =>
      intro place rv hmem hbad st idx
      rcases List.mem_cons.mp hmem with heq | hmem'
      · obtain ⟨e, he⟩ := codegen_statement_bad fcx st place rv hbad
        exact ⟨e, by simp [codegen_block_stmts, ← heq, he,
          except_bind_error]⟩
      · rcases hs : codegen_statement fcx st s with e | p
        · exact ⟨e, by simp [codegen_block_stmts, hs, except_bind_error]⟩
        · obtain ⟨st1, lowered⟩ := p
          obtain ⟨e, he⟩ := ih place rv hmem' hbad st1 (idx + 1)
          exact ⟨e, by simp [codegen_block_stmts, hs, he, except_bind_ok,
            except_bind_error]⟩

/-- Auxiliary for C5: a switch with three or more targets makes
`codegen_switch_int` abort. -/
theorem codegen_switch_int_three_arms (fcx : FunctionCtx) (st : RefMap)
    (discr : Operand) (targets : SwitchTargets)
    (h : 3 ≤ targets.branches.length + 1) :
    ∃ e, codegen_switch_int fcx st discr targets = .error e := by
  rcases hop : codegen_operand fcx st discr with e | op
  · exact ⟨e, by simp [codegen_switch_int, hop, except_bind_error]⟩
  · have hne : ¬ targets.branches.length + 1 = 2 := by omega
    exact ⟨"todo: switch with more than two targets",
      by simp [codegen_switch_int, hop, hne, except_bind_ok]⟩

/-- Auxiliary for C5: a call to a callee outside the intrinsic table makes
`codegen_funcall` abort. -/
theorem codegen_funcall_unrecognized (fcx : FunctionCtx) (st : RefMap)
    (func : Operand) (args : List Operand) (dest : Place)
    (target : Option Nat) (fname : String)
    (hty : operand_ty fcx func = .ok (.fnDef fname))
    (hint : fcx.kani_intrinsic fname = none) :
    codegen_funcall fcx st func args dest target =
      .error "todo: only Kani intrinsic calls are handled" := by
  simp [codegen_funcall, hty, hint, except_bind_ok]

/-- Auxiliary for C5: a terminator whose lowering aborts in every alias-table
state makes the whole block lowering abort. -/
theorem codegen_block_bad_term (fcx : FunctionCtx) (bb : Nat)
    (bbd : BasicBlockData)
    (hterm : ∀ st0 : RefMap,
      ∃ e, codegen_terminator fcx st0 bbd.terminator = .error e) :
    ∀ st : RefMap, ∃ e, codegen_block fcx st bb bbd = .error e := by
  intro st
  cases hstmts : bbd.statements with
  | nil =>
      obtain ⟨e, he⟩ := hterm st
      exact ⟨e, by simp [codegen_block, hstmts, he, except_bind_error]⟩
  | cons s0 rest =>
      rcases hss : codegen_block_stmts fcx st (blockLabel bb) 0 (s0 :: rest)
        with e | p
      · exact ⟨e, by simp [codegen_block, hstmts, hss, except_bind_error]⟩
      · obtain ⟨st1, ss⟩ := p
        obtain ⟨e, he⟩ := hterm st1
        exact ⟨e, by simp [codegen_block, hstmts, hss, he, except_bind_ok,
          except_bind_error]⟩

/-- Auxiliary for C5: a rejected block makes `codegen_block` abort in every
alias-table state. -/
theorem codegen_block_bad (fcx : FunctionCtx) (bb : Nat)
    (bbd : BasicBlockData) (hbad : badBlock fcx bbd) :
    ∀ st : RefMap, ∃ e, codegen_block fcx st bb bbd = .error e := by
  rcases hbad with ⟨discr, targets, hterm, harms⟩
    | ⟨place, rv, hmem, hbadrv⟩
    | ⟨func, args, dest, target, fname, hterm, hty, hint⟩
  · refine codegen_block_bad_term fcx bb bbd ?_
    intro st0
    obtain ⟨e, he⟩ := codegen_switch_int_three_arms fcx st0 discr targets harms
    exact ⟨e, by simp [codegen_terminator, hterm, he, except_bind_error]⟩
  · intro st
    cases hstmts : bbd.statements with
    | nil => rw [hstmts] at hmem; cases hmem
    | cons s0 rest =>
        rw [hstmts] at hmem
        obtain ⟨e, he⟩ := codegen_block_stmts_bad fcx (blockLabel bb)
          (s0 :: rest) place rv hmem hbadrv st 0
        exact ⟨e, by simp [codegen_block, hstmts, he, except_bind_error]⟩
  · refine codegen_block_bad_term fcx bb bbd ?_
    intro st0
    exact ⟨"todo: only Kani intrinsic calls are handled",
      by simp [codegen_terminator, hterm,
        codegen_funcall_unrecognized fcx st0 func args dest target fname
          hty hint]⟩

/-- Auxiliary for C5: if some listed block's lowering aborts in every state,
the block-list lowering aborts. -/
theorem codegen_blocks_bad (fcx : FunctionCtx) (bb : Nat)
    (bbd : BasicBlockData) (hbb : fcx.mir.blocks[bb]? = some bbd)
    (hblock : ∀ st : RefMap, ∃ e, codegen_block fcx st bb bbd = .error e) :
    ∀ l : List Nat, bb ∈ l →
      ∀ st : RefMap, ∃ e, codegen_blocks fcx st l = .error e := by
  intro l
  induction l with
  | nil => intro h; cases h
  | cons x rest ih =>
      intro hmem st
      rcases List.mem_cons.mp hmem with heq | hmem'
      · subst heq
        obtain ⟨e, he⟩ := hblock st
        exact ⟨e, by simp [codegen_blocks, hbb, he, except_bind_error]⟩
      · cases hx : fcx.mir.blocks[x]? with
        | none =>
            exact ⟨"reverse_postorder yielded an unknown block",
              by simp [codegen_blocks, hx]⟩
        | some bbdx =>
            rcases hbx : codegen_block fcx st x bbdx with e | p
            · exact ⟨e, by simp [codegen_blocks, hx, hbx,
                except_bind_error]⟩
            · obtain ⟨st1, sx⟩ := p
              obtain ⟨e, he⟩ := ih hmem' st1
              exact ⟨e, by simp [codegen_blocks, hx, hbx, he,
                except_bind_ok, except_bind_error]⟩

/-- Counterexample for C5: `mirDeadSwitch` contains a three-arm switch (in
`bb1`, which is unreachable from the entry), yet its translation does not
abort — it produces a complete procedure, because the reverse-postorder
traversal never visits `bb1`. -/
theorem c5_counterexample :
    mirDeadSwitch.blocks[1]? =
        some { statements := [],
               terminator := .switchInt (.copy ⟨1, []⟩) ⟨[(0, 0), (1, 0)], 0⟩ } ∧
      (⟨[(0, 0), (1, 0)], 0⟩ : SwitchTargets).branches.length + 1 = 3 ∧
      reverse_postorder mirDeadSwitch = [0] ∧
      codegen_function (exampleFcx mirDeadSwitch) ⟨"h", "sym_h"⟩ =
        .ok (some (Procedure.new "sym_h" [] [] none
          (Stmt.Block [Stmt.Decl "_1" (BType.Bv 8),
            Stmt.Block [Stmt.Label "bb0" Stmt.Return]]))) :=
  ⟨rfl, rfl, rfl, rfl⟩

/-- C5 (amended): if a block visited by the reverse-postorder traversal
(i.e. reachable from the entry) contains a switch with three or more arms,
an assignment whose binary operator is outside the supported set, a cast
whose kind is not integer-to-integer, or a call whose resolved callee is not
in the intrinsic table, then translation of the (non-hook) function aborts
and produces no procedure output at all. -/
theorem c5_unsupported_aborts (fcx : FunctionCtx) (inst : FnInstance)
    (bb : Nat) (bbd : BasicBlockData)
    (hhook : fcx.kani_intrinsic inst.defName = none)
    (hmem : bb ∈ reverse_postorder fcx.mir)
    (hbb : fcx.mir.blocks[bb]? = some bbd)
    (hbad : badBlock fcx bbd) :
    aborted (codegen_function fcx inst) = true := by
  have hblock := codegen_block_bad fcx bb bbd hbad
  have hblocks := codegen_blocks_bad fcx bb bbd hbb hblock
    (reverse_postorder fcx.mir) hmem
  rcases hdecl : codegen_declare_variables fcx with e | decls
  · simp [codegen_function, hhook, hdecl, except_bind_error, aborted]
  · obtain ⟨e, he⟩ := hblocks []
    simp [codegen_function, hhook, hdecl, codegen_body, he, except_bind_ok,
      except_bind_error, aborted]

/-- Witness for C5 (amended): a reachable three-arm switch, a reachable
unsupported binary operator (`mul`), and a reachable call to a non-intrinsic
callee each abort the whole translation. -/
theorem c5_witness :
    aborted (codegen_function (exampleFcx mirSwitch3) ⟨"h3", "sym_h3"⟩) =
        true ∧
      aborted (codegen_function (exampleFcx mirBadBinop) ⟨"hm", "sym_hm"⟩) =
        true ∧
      aborted (codegen_function (exampleFcx mirBadCall) ⟨"hc", "sym_hc"⟩) =
        true :=
  ⟨c5_unsupported_aborts (exampleFcx mirSwitch3) ⟨"h3", "sym_h3"⟩ 0
      { statements := [],
        terminator := .switchInt (.copy ⟨1, []⟩) ⟨[(0, 0), (1, 0)], 0⟩ }
      rfl (by decide) rfl
      (Or.inl ⟨.copy ⟨1, []⟩, ⟨[(0, 0), (1, 0)], 0⟩, rfl, by decide⟩),
    c5_unsupported_aborts (exampleFcx mirBadBinop) ⟨"hm", "sym_hm"⟩ 0
      { statements :=
          [.assign ⟨1, []⟩
            (.binaryOp .mul (.copy ⟨1, []⟩) (.copy ⟨1, []⟩))],
        terminator := .ret }
      rfl (by decide) rfl
      (Or.inr (Or.inl ⟨⟨1, []⟩,
        .binaryOp .mul (.copy ⟨1, []⟩) (.copy ⟨1, []⟩),
        List.Mem.head _,
        Or.inl ⟨.mul, .copy ⟨1, []⟩, .copy ⟨1, []⟩, Or.inl rfl, rfl⟩⟩)),
    c5_unsupported_aborts (exampleFcx mirBadCall) ⟨"hc", "sym_hc"⟩ 0
      { statements := [],
        terminator := .call (.constant (.val (.scalar 0) (.fnDef "foo")))
          [] ⟨0, []⟩ (some 1) }
      rfl (by decide) rfl
      (Or.inr (Or.inr ⟨.constant (.val (.scalar 0) (.fnDef "foo")),
        [], ⟨0, []⟩, some 1, "foo", rfl, rfl, rfl⟩))⟩

/-- Witness for C3 at the concrete boolean switch body. -/
theorem c3_witness :
    codegen_switch_int (exampleFcx mirSwitchBool) [] (.copy ⟨1, []⟩)
        ⟨[(0, 1)], 2⟩ =
      .ok (Stmt.If
        (Expr.BinaryOp BinaryOp.Eq (Expr.Symbol "_1")
          (Expr.Literal (Literal.Bool false)))
        (Stmt.Goto "bb1") (some (Stmt.Goto "bb2"))) :=
  c3_bool_switch (exampleFcx mirSwitchBool) [] (.copy ⟨1, []⟩) 1 2
    (Expr.Symbol "_1") rfl rfl

end KaniBoogie
